import Mathlib

/-!
Shallow embedding of the RAFCON core state data model and the leaf
execution-state runner, translated from
`source/rafcon/core/states/state.py` and
`source/rafcon/statemachine/states/execution_state.py`.

Python dictionaries are modelled as association lists (`List (κ × α)`);
`d[k] = v` replaces the entry in place when the key is present and appends
otherwise, `del d[k]` removes the entry, `k in d` is key membership.
Python values that flow through data ports are modelled by the inductive
`PyVal`; exceptions are carried as messages.  Logging calls
(`logger.error`, `logger.debug`) have no effect on the data model and are
dropped.  `copy.copy` on the immutable values modelled here is the
identity.
-/

namespace Rafcon

/-- A Python value stored in a data port or returned by a leaf script. -/
inductive PyVal where
  | none
  | int (n : Int)
  | str (s : String)
  | exc (msg : String)
deriving DecidableEq, Repr

/-- `rafcon.core.state_elements.outcome.Outcome`: id and name. -/
structure Outcome where
  outcome_id : Int
  name : String
deriving DecidableEq, Repr

/-- An input or output data port (`rafcon.core.state_elements.data_port`):
id, name and default value.  The `data_type` field is used only by the
log-only checks `check_input_data_type` / `check_output_data_type` and is
not modelled. -/
structure DataPort where
  data_port_id : Int
  name : String
  default_value : PyVal
deriving DecidableEq, Repr

/-- Key lookup in an association list (Python `d[k]` / `d.get(k)`). -/
def alookup {κ α : Type} [DecidableEq κ] : List (κ × α) → κ → Option α
  | [], _ => Option.none
  | (k, v) :: rest, k' => if k = k' then some v else alookup rest k'

/-- Key membership (Python `k in d`). -/
def acontains {κ α : Type} [DecidableEq κ] (m : List (κ × α)) (k : κ) : Bool :=
  (alookup m k).isSome

/-- Python `d[k] = v`: replace the entry in place when present, append
otherwise. -/
def ainsert {κ α : Type} [DecidableEq κ] : List (κ × α) → κ → α → List (κ × α)
  | [], k, v => [(k, v)]
  | (k', v') :: rest, k, v =>
      if k' = k then (k, v) :: rest else (k', v') :: ainsert rest k v

/-- Python `del d[k]`. -/
def aerase {κ α : Type} [DecidableEq κ] (m : List (κ × α)) (k : κ) : List (κ × α) :=
  m.filter (fun p => p.1 ≠ k)

/-- The keys of the dictionary (Python `d.keys()`). -/
def akeys {κ α : Type} (m : List (κ × α)) : List κ :=
  m.map (fun p => p.1)

/-- `rafcon.core.states.state.StateExecutionStatus`. -/
inductive StateExecutionStatus where
  | INACTIVE
  | ACTIVE
  | EXECUTE_CHILDREN
  | WAIT_FOR_NEXT_STATE
deriving DecidableEq, Repr

/-- An item posted to a concurrency queue.  The Python queue is untyped:
`State.finalize` posts the bare `state_id`, while the specification talks
about a `(state_id, outcome)` pair, so both shapes are representable. -/
inductive QueueItem where
  | stateId (s : String)
  | pair (s : String) (o : Outcome)
deriving DecidableEq, Repr

/-- The fields of `rafcon.core.states.state.State` (specialised to a leaf
execution state, which has no children) that the core data-model and
runner operations read or write.  The three `threading.Event` latches are
booleans (`set`/`clear`/`is_set`); the concurrency queue is `none` when
the state is not inside a concurrency group, otherwise the queue's
current contents. -/
structure State where
  state_id : String
  name : String
  input_data_ports : List (Int × DataPort)
  output_data_ports : List (Int × DataPort)
  outcomes : List (Int × Outcome)
  input_data : List (String × PyVal)
  output_data : List (String × PyVal)
  preempted : Bool
  paused : Bool
  started : Bool
  backward_execution : Bool
  state_execution_status : StateExecutionStatus
  final_outcome : Option Outcome
  concurrency_queue : Option (List QueueItem)
deriving DecidableEq, Repr

/-- `State.outcomes` setter (state.py ll. 1058–1091): after type and key
checks the handed dictionary replaces `_outcomes`; then outcome −1
("aborted") and outcome −2 ("preempted") are inserted whenever absent,
because "aborted and preempted must always exist". -/
def set_outcomes (st : State) (outcomes : List (Int × Outcome)) : Except String State :=
  if (outcomes.filter (fun p => ¬ p.1 = p.2.outcome_id)).length ≠ 0 then
    Except.error "The key of the outcomes dictionary and the id of the outcome do not match"
  else
    let ocs1 := if acontains outcomes (-1) then outcomes
                else ainsert outcomes (-1) ⟨-1, "aborted"⟩
    let ocs2 := if acontains ocs1 (-2) then ocs1
                else ainsert ocs1 (-2) ⟨-2, "preempted"⟩
    Except.ok { st with outcomes := ocs2 }

/-- `State.remove_outcome` (state.py ll. 644–669): unknown ids raise; the
reserved outcomes −1 and −2 raise unless `force` is set; otherwise the
outcome is deleted.  (The transition cleanup on the way touches only the
parent container, never this state's `outcomes` map.)  On `Except.error`
the Python object is left unchanged, which callers model by keeping `st`. -/
def remove_outcome (st : State) (outcome_id : Int) (force : Bool) : Except String State :=
  if ¬ acontains st.outcomes outcome_id then
    Except.error "There is no outcome_id"
  else if ¬ force ∧ (outcome_id = -1 ∨ outcome_id = -2) then
    Except.error "You cannot remove the outcomes with id -1 or -2"
  else
    Except.ok { st with outcomes := aerase st.outcomes outcome_id }

/-- Python `==` between a `str` and an `int` key: always `False`.  This is
the comparison performed by `if name in self._outcomes` in
`State.add_outcome`, since the keys of `_outcomes` are the integer
outcome ids. -/
def py_str_eq_int (_s : String) (_n : Int) : Bool :=
  false

/-- Modelled from the spec: `generate_outcome_id` of
`rafcon.core.id_generator` (the module is not part of the sources at
hand).  Per spec §4.1 the generator only needs to return an id that does
not collide with the ids handed to it; we return one greater than the
maximum. -/
def generate_outcome_id (ids : List Int) : Int :=
  (ids.foldl (fun a b => max a b) 0) + 1

/-- Result of `State.add_outcome`: the generated id on success, or a
silent `return` after `logger.error` (the method raises nothing itself). -/
inductive AddOutcomeResult where
  | ok (outcome_id : Int)
  | silent
deriving DecidableEq, Repr

/-- `State.add_outcome` (state.py ll. 603–624).  The duplicate-name guard
is literally `if name in self._outcomes`, i.e. membership of the string
`name` among the integer outcome ids, which by Python cross-type equality
never holds; the duplicate-id guard checks `outcome_id in self.outcomes`.
Both failing guards log an error and `return` (returning `None`) without
touching the map. -/
def add_outcome (st : State) (name : String) (outcome_id : Option Int) :
    AddOutcomeResult × State :=
  let oid := match outcome_id with
             | some i => i
             | Option.none => generate_outcome_id (akeys st.outcomes)
  if (akeys st.outcomes).any (fun k => py_str_eq_int name k) then
    (AddOutcomeResult.silent, st)
  else if acontains st.outcomes oid then
    (AddOutcomeResult.silent, st)
  else
    (AddOutcomeResult.ok oid, { st with outcomes := ainsert st.outcomes oid ⟨oid, name⟩ })

/-- Modelled from the spec: `generate_data_port_id` of
`rafcon.core.id_generator` (not among the sources at hand).  Spec §4.1:
"the generator retries on collision with the existing id set provided by
the caller" — the only property used is that the returned id is fresh. -/
def generate_data_port_id (ids : List Int) : Int :=
  (ids.foldl (fun a b => max a b) 0) + 1

/-- `State._check_data_port_name` (state.py ll. 769–789): valid iff no
*other* port of the same direction carries the same name.  Object
identity (`data_port is not input_data_port`) is rendered as key
inequality: the checked port sits in the map at its own
`data_port_id`. -/
def check_data_port_name (input_ports output_ports : List (Int × DataPort))
    (p : DataPort) : Bool :=
  if acontains input_ports p.data_port_id then
    ¬ input_ports.any (fun q => q.1 ≠ p.data_port_id ∧ q.2.name = p.name)
  else if acontains output_ports p.data_port_id then
    ¬ output_ports.any (fun q => q.1 ≠ p.data_port_id ∧ q.2.name = p.name)
  else
    true

/-- Result of `State.add_input_data_port` / `add_output_data_port`: the
data-port id on success, or the `ValueError` message raised after the
freshly inserted entry has been deleted again.  Because Python raising
leaves `self` in whatever shape the method produced, the post-state is
returned alongside the result in both cases. -/
inductive PortOpResult where
  | ok (data_port_id : Int)
  | err (msg : String)
deriving DecidableEq, Repr

/-- `State.add_input_data_port` (state.py ll. 334–359): generate an id if
none is given, insert the new port into `_input_data_ports`, then check
name uniqueness; on failure delete the entry at that id and raise
`ValueError`. -/
def add_input_data_port (st : State) (name : String) (default_value : PyVal)
    (data_port_id : Option Int) : PortOpResult × State :=
  let dpid := match data_port_id with
              | some i => i
              | Option.none =>
                  generate_data_port_id
                    (akeys st.input_data_ports ++ akeys st.output_data_ports)
  let p : DataPort := ⟨dpid, name, default_value⟩
  let inserted := ainsert st.input_data_ports dpid p
  if check_data_port_name inserted st.output_data_ports p then
    (PortOpResult.ok dpid, { st with input_data_ports := inserted })
  else
    (PortOpResult.err "data port name already existing in state's input data ports",
     { st with input_data_ports := aerase inserted dpid })

/-- `State.add_output_data_port` (state.py ll. 395–420), symmetric to
`add_input_data_port`. -/
def add_output_data_port (st : State) (name : String) (default_value : PyVal)
    (data_port_id : Option Int) : PortOpResult × State :=
  let dpid := match data_port_id with
              | some i => i
              | Option.none =>
                  generate_data_port_id
                    (akeys st.input_data_ports ++ akeys st.output_data_ports)
  let p : DataPort := ⟨dpid, name, default_value⟩
  let inserted := ainsert st.output_data_ports dpid p
  if check_data_port_name st.input_data_ports inserted p then
    (PortOpResult.ok dpid, { st with output_data_ports := inserted })
  else
    (PortOpResult.err "data port name already existing in state's output data ports",
     { st with output_data_ports := aerase inserted dpid })

/-- `State.remove_input_data_port` (state.py ll. 361–374): unknown ids
raise `AttributeError`, otherwise the port is deleted.  (The data-flow
cleanup `remove_data_flows_with_data_port_id` touches only the parent
container.)  The `force` parameter is accepted and ignored, as in the
source. -/
def remove_input_data_port (st : State) (data_port_id : Int) (_force : Bool) :
    Except String State :=
  if acontains st.input_data_ports data_port_id then
    Except.ok { st with input_data_ports := aerase st.input_data_ports data_port_id }
  else
    Except.error "input data port does not exist"

/-- `State.remove_output_data_port` (state.py ll. 422–434). -/
def remove_output_data_port (st : State) (data_port_id : Int) (_force : Bool) :
    Except String State :=
  if acontains st.output_data_ports data_port_id then
    Except.ok { st with output_data_ports := aerase st.output_data_ports data_port_id }
  else
    Except.error "output data port does not exist"

/-- `State.destruct` (state.py ll. 858–872): remove every input data port
(forced), every output data port (forced), and every outcome whose key is
neither −1 nor −2 (forced).  CPython interns small integers, so the
source's `outcome_key is not -1 and outcome_key is not -2` behaves as
inequality.  Iteration runs over a snapshot of the keys, as
`dict.keys()` returns a fresh list in Python 2. -/
def destruct (st : State) : State :=
  let st1 := (akeys st.input_data_ports).foldl
    (fun s k => match remove_input_data_port s k true with
                | Except.ok s' => s'
                | Except.error _ => s) st
  let st2 := (akeys st1.output_data_ports).foldl
    (fun s k => match remove_output_data_port s k true with
                | Except.ok s' => s'
                | Except.error _ => s) st1
  (akeys st2.outcomes).foldl
    (fun s k =>
      if k ≠ -1 ∧ k ≠ -2 then
        match remove_outcome s k true with
        | Except.ok s' => s'
        | Except.error _ => s
      else s) st2

/-- `State.recursively_preempt_states` (state.py ll. 253–258): set the
preempted latch, clear the paused and started latches.  (On this leaf
base class there are no children to recurse into.) -/
def recursively_preempt_states (st : State) : State :=
  { st with preempted := true, paused := false, started := false }

/-- `State.finalize` (state.py ll. 1279–1298): store the final outcome
when one is handed in; when the state sits inside a concurrency group
(its `concurrency_queue` is set), post the bare `state_id` to that
queue. -/
def finalize (st : State) (outcome : Option Outcome) : State :=
  let st1 := match outcome with
             | some oc => { st with final_outcome := some oc }
             | Option.none => st
  match st1.concurrency_queue with
  | some q => { st1 with concurrency_queue := some (q ++ [QueueItem.stateId st1.state_id]) }
  | Option.none => st1

/-- What running the user script of an `ExecutionState` leaves behind:
the (possibly mutated) `outputs` dictionary, the preempted latch as the
script returns (it may have been set concurrently from outside while the
body ran), and either the returned value or the raised exception. -/
structure BodyEffect where
  outputs : List (String × PyVal)
  preempted : Bool
  result : Except String PyVal

/-- A leaf script (`script.execute`), as a function of the input
dictionary, the output dictionary and the `backward_execution` flag. -/
def Body : Type :=
  List (String × PyVal) → List (String × PyVal) → Bool → BodyEffect

/-- Python `==` between a returned script value and an integer outcome
id, as evaluated by `outcome_item in self.outcomes`. -/
def py_val_eq_int (v : PyVal) (n : Int) : Bool :=
  match v with
  | PyVal.int m => m = n
  | _ => false

/-- Python `==` between an outcome name (a `str`) and the returned script
value. -/
def py_val_eq_str (v : PyVal) (s : String) : Bool :=
  match v with
  | PyVal.str t => t = s
  | _ => false

/-- `outcome_item in self.outcomes` followed by `self.outcomes[outcome_item]`:
the first entry whose integer key compares equal to the returned value. -/
def outcome_by_id (ocs : List (Int × Outcome)) (v : PyVal) : Option Outcome :=
  match ocs with
  | [] => Option.none
  | (k, oc) :: rest => if py_val_eq_int v k then some oc else outcome_by_id rest v

/-- The `for outcome_id, outcome in self.outcomes.iteritems()` loop of
`ExecutionState._execute`: the first outcome whose name compares equal to
the returned value. -/
def outcome_by_name (ocs : List (Int × Outcome)) (v : PyVal) : Option Outcome :=
  match ocs with
  | [] => Option.none
  | (_, oc) :: rest => if py_val_eq_str v oc.name then some oc else outcome_by_name rest v

/-- `ExecutionState._execute` (execution_state.py ll. 40–66): run the
script; in backward mode the outcome is irrelevant (`return` with no
value); if the state was preempted, leave on `Outcome(-2, "preempted")`;
else return the outcome matching the returned outcome id, else the first
outcome matching the returned name, else log and return
`Outcome(-1, "aborted")`.  A raising script propagates (to be caught in
`run`); the state carries the outputs and the preempted latch the script
left behind in either case. -/
def execute_script (st : State) (body : Body) (backward_execution : Bool) :
    Except String (Option Outcome) × State :=
  let eff := body st.input_data st.output_data backward_execution
  let st1 := { st with output_data := eff.outputs, preempted := eff.preempted }
  match eff.result with
  | Except.error e => (Except.error e, st1)
  | Except.ok v =>
      if backward_execution then
        (Except.ok Option.none, st1)
      else if st1.preempted then
        (Except.ok (some ⟨-2, "preempted"⟩), st1)
      else
        match outcome_by_id st1.outcomes v with
        | some oc => (Except.ok (some oc), st1)
        | Option.none =>
            match outcome_by_name st1.outcomes v with
            | some oc => (Except.ok (some oc), st1)
            | Option.none => (Except.ok (some ⟨-1, "aborted"⟩), st1)

/-- `State.setup_run` (state.py ll. 229–240): status becomes ACTIVE and
the preempted latch is cleared.  The dict-type guards cannot fire in this
typed embedding and `check_input_data_type` only logs. -/
def setup_run (st : State) : State :=
  { st with state_execution_status := StateExecutionStatus.ACTIVE, preempted := false }

/-- `State.setup_backward_run` (state.py ll. 242–244). -/
def setup_backward_run (st : State) : State :=
  { st with state_execution_status := StateExecutionStatus.ACTIVE, preempted := false }

/-- Call-sequence instrumentation for `ExecutionState.run`: which of the
source's side-effecting steps were reached, in order. -/
inductive RunEvent where
  | setupRun
  | setupBackwardRun
  | executedBody
  | checkedOutputDataType
  | finalized (outcome : Option Outcome)
deriving DecidableEq, Repr

/-- `ExecutionState.run` (execution_state.py ll. 68–103).  Backward mode:
`setup_backward_run`, execute the script discarding any outcome, status
`WAIT_FOR_NEXT_STATE`, `finalize()` with no outcome.  Forward mode:
`setup_run`, execute, status `WAIT_FOR_NEXT_STATE`,
`check_output_data_type` (log-only), `finalize(outcome)`.  Any exception
escaping the script is caught: the exception object is written to
`output_data["error"]`, status becomes `WAIT_FOR_NEXT_STATE` and the
state finalizes with `Outcome(-1, "aborted")`.  The returned trace
records the steps reached. -/
def run (st : State) (body : Body) : State × List RunEvent :=
  if st.backward_execution then
    let st1 := setup_backward_run st
    match execute_script st1 body true with
    | (Except.ok _, st2) =>
        let st3 := { st2 with state_execution_status := StateExecutionStatus.WAIT_FOR_NEXT_STATE }
        (finalize st3 Option.none,
         [RunEvent.setupBackwardRun, RunEvent.executedBody, RunEvent.finalized Option.none])
    | (Except.error e, st2) =>
        let st3 := { st2 with
          output_data := ainsert st2.output_data "error" (PyVal.exc e),
          state_execution_status := StateExecutionStatus.WAIT_FOR_NEXT_STATE }
        (finalize st3 (some ⟨-1, "aborted"⟩),
         [RunEvent.setupBackwardRun, RunEvent.executedBody,
          RunEvent.finalized (some ⟨-1, "aborted"⟩)])
  else
    let st1 := setup_run st
    match execute_script st1 body false with
    | (Except.ok outcome, st2) =>
        let st3 := { st2 with state_execution_status := StateExecutionStatus.WAIT_FOR_NEXT_STATE }
        (finalize st3 outcome,
         [RunEvent.setupRun, RunEvent.executedBody, RunEvent.checkedOutputDataType,
          RunEvent.finalized outcome])
    | (Except.error e, st2) =>
        let st3 := { st2 with
          output_data := ainsert st2.output_data "error" (PyVal.exc e),
          state_execution_status := StateExecutionStatus.WAIT_FOR_NEXT_STATE }
        (finalize st3 (some ⟨-1, "aborted"⟩),
         [RunEvent.setupRun, RunEvent.executedBody,
          RunEvent.finalized (some ⟨-1, "aborted"⟩)])

/-- Modelled from the spec: the global variable manager (spec §4.5, the
module `rafcon.core.global_variable_manager` is not among the sources at
hand).  It "maps name → value" with operations `variable_exist` and
`get_variable`; the store is a name→value map. -/
structure GlobalVariableManager where
  vars : List (String × PyVal)

/-- Modelled from the spec: `gvm.variable_exist(name)`. -/
def variable_exist (gvm : GlobalVariableManager) (name : String) : Bool :=
  acontains gvm.vars name

/-- Modelled from the spec: `gvm.get_variable(name)`; only reached after
a successful `variable_exist` check. -/
def get_variable (gvm : GlobalVariableManager) (name : String) : PyVal :=
  match alookup gvm.vars name with
  | some v => v
  | Option.none => PyVal.none

/-- The per-port body of `State.get_default_input_values_for_state`
(state.py ll. 299–312): a non-empty string default beginning with `$` is
resolved against the global variable store (a missing global logs an
error and yields `None`); any other default is (shallow-)copied. -/
def resolve_default (gvm : GlobalVariableManager) (default : PyVal) : PyVal :=
  match default with
  | PyVal.str s =>
      if s.length > 0 ∧ s.front = '$' then
        let var_name := s.drop 1
        if variable_exist gvm var_name then get_variable gvm var_name
        else PyVal.none
      else PyVal.str s
  | d => d

/-- The default value chosen for one port (state.py ll. 292–298): for a
`LibraryState` with `use_runtime_value` set for the port, the runtime
override replaces the port's default. -/
def port_default (is_library : Bool) (use_runtime_value : List (Int × Bool))
    (runtime_values : List (Int × PyVal)) (port_key : Int) (port : DataPort) : PyVal :=
  if is_library && (match alookup use_runtime_value port_key with
                    | some b => b
                    | Option.none => false) then
    match alookup runtime_values port_key with
    | some v => v
    | Option.none => PyVal.none
  else
    port.default_value

/-- `State.get_default_input_values_for_state` (state.py ll. 283–313):
build `result_dict`, mapping each input port's name to its resolved
default value. -/
def get_default_input_values_for_state (gvm : GlobalVariableManager)
    (is_library : Bool) (use_runtime_value : List (Int × Bool))
    (runtime_values : List (Int × PyVal)) (input_data_ports : List (Int × DataPort)) :
    List (String × PyVal) :=
  input_data_ports.foldl
    (fun acc kv =>
      ainsert acc kv.2.name
        (resolve_default gvm (port_default is_library use_runtime_value runtime_values kv.1 kv.2)))
    []

/-- A non-forced data-model operation on a single state: the setters and
add/remove operations of `State` that can touch the port and outcome
maps, each invoked with `force=False` where a `force` parameter exists. -/
inductive StateOp where
  | setOutcomes (outcomes : List (Int × Outcome))
  | addOutcome (name : String) (outcome_id : Option Int)
  | removeOutcome (outcome_id : Int)
  | addInputDataPort (name : String) (default_value : PyVal) (data_port_id : Option Int)
  | addOutputDataPort (name : String) (default_value : PyVal) (data_port_id : Option Int)
  | removeInputDataPort (data_port_id : Int)
  | removeOutputDataPort (data_port_id : Int)

/-- Apply one non-forced operation; a raising operation leaves the state
as the operation left it (for the `Except`-returning operations that is
the unchanged state). -/
def apply_op (st : State) (op : StateOp) : State :=
  match op with
  | StateOp.setOutcomes ocs =>
      match set_outcomes st ocs with
      | Except.ok st' => st'
      | Except.error _ => st
  | StateOp.addOutcome n oid => (add_outcome st n oid).2
  | StateOp.removeOutcome oid =>
      match remove_outcome st oid false with
      | Except.ok st' => st'
      | Except.error _ => st
  | StateOp.addInputDataPort n d i => (add_input_data_port st n d i).2
  | StateOp.addOutputDataPort n d i => (add_output_data_port st n d i).2
  | StateOp.removeInputDataPort i =>
      match remove_input_data_port st i false with
      | Except.ok st' => st'
      | Except.error _ => st
  | StateOp.removeOutputDataPort i =>
      match remove_output_data_port st i false with
      | Except.ok st' => st'
      | Except.error _ => st

/-- Apply a sequence of non-forced operations, first one first. -/
def apply_ops (st : State) (ops : List StateOp) : State :=
  ops.foldl apply_op st

/-- The invariant of claim C1: the reserved outcomes −1 ("aborted") and
−2 ("preempted") are present in the state's outcomes map. -/
def has_reserved_outcomes (st : State) : Bool :=
  acontains st.outcomes (-1) && acontains st.outcomes (-2)

/-- A concrete freshly constructed state, as `State.__init__` leaves it:
the default outcome 0 ("success") plus the reserved outcomes inserted by
the outcomes setter. -/
def testState : State where
  state_id := "ST1"
  name := "test"
  input_data_ports := []
  output_data_ports := []
  outcomes := [(0, ⟨0, "success"⟩), (-1, ⟨-1, "aborted"⟩), (-2, ⟨-2, "preempted"⟩)]
  input_data := []
  output_data := []
  preempted := false
  paused := false
  started := false
  backward_execution := false
  state_execution_status := StateExecutionStatus.INACTIVE
  final_outcome := Option.none
  concurrency_queue := Option.none

/-- A leaf script that raises an exception. -/
def raisingBody : Body :=
  fun _ _ _ => ⟨[("x", PyVal.int 5)], false, Except.error "boom"⟩

/-- A leaf script that returns a value matching neither an outcome id nor
an outcome name. -/
def unknownOutcomeBody : Body :=
  fun _ _ _ => ⟨[], false, Except.ok (PyVal.str "nope")⟩

/-- A leaf script that returns the outcome id 0. -/
def successBody : Body :=
  fun _ _ _ => ⟨[], false, Except.ok (PyVal.int 0)⟩

/-- A concrete state with two input data ports named "a" and "b". -/
def twoPortState : State :=
  { testState with
      input_data_ports := [(1, ⟨1, "a", PyVal.none⟩), (2, ⟨2, "b", PyVal.none⟩)] }

theorem alookup_ainsert {κ α : Type} [DecidableEq κ] (m : List (κ × α)) (k k' : κ) (v : α) :
    alookup (ainsert m k v) k' = if k = k' then some v else alookup m k' := by
  induction m with
  | nil => simp [ainsert, alookup]
  | cons p rest ih =>
    obtain ⟨pk, pv⟩ := p
    by_cases hpk : pk = k
    · subst hpk
      by_cases hk' : pk = k'
      · subst hk'
        simp [ainsert, alookup]
      · simp [ainsert, alookup, hk']
    · by_cases hpk' : pk = k'
      · subst hpk'
        have hk : ¬ k = pk := fun h => hpk h.symm
        simp [ainsert, alookup, hpk, hk]
      · simp [ainsert, alookup, hpk, hpk', ih]

theorem alookup_aerase {κ α : Type} [DecidableEq κ] (m : List (κ × α)) (k k' : κ) :
    alookup (aerase m k) k' = if k' = k then Option.none else alookup m k' := by
  induction m with
  | nil => simp [aerase, alookup]
  | cons p rest ih =>
    obtain ⟨pk, pv⟩ := p
    simp only [aerase, List.filter_cons, ne_eq, decide_not] at ih ⊢
    by_cases hpk : pk = k
    · subst hpk
      by_cases hk' : k' = pk
      · subst hk'
        simp [ih]
      · have h2 : ¬ pk = k' := fun h => hk' h.symm
        simp [alookup, ih, hk', h2]
    · by_cases hk' : k' = k
      · subst hk'
        simp [alookup, hpk, ih, fun h : pk = k' => hpk h]
      · by_cases hpk' : pk = k'
        · subst hpk'
          simp [alookup, hpk, hk']
        · simp [alookup, hpk, hpk', hk', ih]

theorem acontains_ainsert {κ α : Type} [DecidableEq κ] (m : List (κ × α)) (k k' : κ) (v : α) :
    acontains (ainsert m k v) k' = (decide (k = k') || acontains m k') := by
  simp only [acontains, alookup_ainsert]
  by_cases h : k = k' <;> simp [h]

theorem acontains_aerase {κ α : Type} [DecidableEq κ] (m : List (κ × α)) (k k' : κ) :
    acontains (aerase m k) k' = (decide (k' ≠ k) && acontains m k') := by
  simp only [acontains, alookup_aerase]
  by_cases h : k' = k <;> simp [h]

/-- Claim C6: `recursively_preempt_states` sets the preempted flag and
clears both the paused and the started flags, and applying it twice
leaves the three flags (indeed the whole state) exactly as applying it
once. -/
theorem recursively_preempt_sets_flags_and_is_idempotent (st : State) :
    (recursively_preempt_states st).preempted = true ∧
    (recursively_preempt_states st).paused = false ∧
    (recursively_preempt_states st).started = false ∧
    recursively_preempt_states (recursively_preempt_states st) =
      recursively_preempt_states st :=
  ⟨rfl, rfl, rfl, rfl⟩

/-- Claim C4 counterexample: on a state with a set concurrency queue and
state id "ST1", `finalize` with outcome 0 posts the bare state id to the
queue, not the pair `(state_id, outcome)` the claim describes. -/
theorem finalize_posts_bare_state_id_not_pair :
    (finalize { testState with concurrency_queue := some [] }
        (some ⟨0, "success"⟩)).concurrency_queue
      = some [QueueItem.stateId "ST1"] ∧
    QueueItem.stateId "ST1" ≠ QueueItem.pair "ST1" ⟨0, "success"⟩ :=
  ⟨rfl, by decide⟩

/-- Claim C4 (amended): `finalize(outcome)` with a non-None outcome
stores the outcome as the state's `final_outcome`; when the state's
concurrency queue is set it posts the state's `state_id` (only the id,
not a `(state_id, outcome)` pair) to that queue, and when the queue is
not set nothing is posted. -/
theorem finalize_stores_outcome_and_posts_state_id (st : State) (oc : Outcome) :
    (∀ q, st.concurrency_queue = some q →
        (finalize st (some oc)).final_outcome = some oc ∧
        (finalize st (some oc)).concurrency_queue
          = some (q ++ [QueueItem.stateId st.state_id])) ∧
    (st.concurrency_queue = Option.none →
        (finalize st (some oc)).final_outcome = some oc ∧
        (finalize st (some oc)).concurrency_queue = Option.none) := by
  constructor
  · intro q hq
    simp [finalize, hq]
  · intro hq
    simp [finalize, hq]

/-- Witness for the amended claim C4 at a concrete state and outcome. -/
theorem finalize_stores_outcome_and_posts_state_id_witness :
    ({ testState with concurrency_queue := some [] } : State).concurrency_queue = some [] ∧
    (finalize { testState with concurrency_queue := some [] }
        (some ⟨0, "success"⟩)).concurrency_queue
      = some [QueueItem.stateId "ST1"] :=
  ⟨rfl,
   ((finalize_stores_outcome_and_posts_state_id
      { testState with concurrency_queue := some [] } ⟨0, "success"⟩).1 [] rfl).2⟩

/-- Claim C2: when the leaf body raises during `run`, the exception is
caught inside `run` (the run completes and produces a state rather than
propagating), the exception object is written to `output_data["error"]`,
and the state finalizes with the reserved outcome −1 ("aborted"). -/
theorem run_catches_body_exception (st : State) (body : Body) (e : String)
    (h : (body st.input_data st.output_data st.backward_execution).result
          = Except.error e) :
    alookup (run st body).1.output_data "error" = some (PyVal.exc e) ∧
    (run st body).1.final_outcome = some ⟨-1, "aborted"⟩ ∧
    (run st body).1.state_execution_status = StateExecutionStatus.WAIT_FOR_NEXT_STATE ∧
    (run st body).2.getLast? = some (RunEvent.finalized (some ⟨-1, "aborted"⟩)) := by
  by_cases hb : st.backward_execution = true
  · rw [hb] at h
    cases hcq : st.concurrency_queue with
    | none =>
      simp [run, hb, execute_script, setup_backward_run, h, finalize, alookup_ainsert, hcq]
    | some q =>
      simp [run, hb, execute_script, setup_backward_run, h, finalize, alookup_ainsert, hcq]
  · rw [Bool.not_eq_true] at hb
    rw [hb] at h
    cases hcq : st.concurrency_queue with
    | none =>
      simp [run, hb, execute_script, setup_run, h, finalize, alookup_ainsert, hcq]
    | some q =>
      simp [run, hb, execute_script, setup_run, h, finalize, alookup_ainsert, hcq]

/-- Witness for claim C2 at a concrete state and raising body. -/
theorem run_catches_body_exception_witness :
    (raisingBody testState.input_data testState.output_data testState.backward_execution).result
      = Except.error "boom" ∧
    alookup (run testState raisingBody).1.output_data "error" = some (PyVal.exc "boom") :=
  ⟨rfl, (run_catches_body_exception testState raisingBody "boom" rfl).1⟩

/-- Claim C3 counterexample: a non-preempted leaf state whose body
returns the value "nope", which matches neither an outcome id nor an
outcome name, finalizes with reserved outcome −1 — but nothing is placed
at `outputs["error"]` (that happens only when the body raises). -/
theorem unknown_return_value_leaves_no_error_output :
    (run testState unknownOutcomeBody).1.final_outcome = some ⟨-1, "aborted"⟩ ∧
    alookup (run testState unknownOutcomeBody).1.output_data "error" = Option.none :=
  ⟨rfl, rfl⟩

/-- Claim C3 (amended): for a non-backward, non-preempted run whose body
returns a value, the run finalizes with the outcome whose id matches the
value; else with the first outcome whose name matches; else with the
reserved outcome −1 — and in that last case the output data is exactly
what the body left behind, so no error object is written to
`outputs["error"]` (that happens only when the body raises). -/
theorem execute_routes_returned_value (st : State) (body : Body) (v : PyVal)
    (hb : st.backward_execution = false)
    (hr : (body st.input_data st.output_data false).result = Except.ok v)
    (hp : (body st.input_data st.output_data false).preempted = false) :
    (∀ oc, outcome_by_id st.outcomes v = some oc →
        (run st body).1.final_outcome = some oc) ∧
    (outcome_by_id st.outcomes v = Option.none →
      ∀ oc, outcome_by_name st.outcomes v = some oc →
        (run st body).1.final_outcome = some oc) ∧
    (outcome_by_id st.outcomes v = Option.none →
      outcome_by_name st.outcomes v = Option.none →
        (run st body).1.final_outcome = some ⟨-1, "aborted"⟩ ∧
        (run st body).1.output_data = (body st.input_data st.output_data false).outputs) := by
  refine ⟨?_, ?_, ?_⟩
  · intro oc hid
    cases hcq : st.concurrency_queue with
    | none => simp [run, hb, execute_script, setup_run, hr, hp, hid, finalize, hcq]
    | some q => simp [run, hb, execute_script, setup_run, hr, hp, hid, finalize, hcq]
  · intro hid oc hname
    cases hcq : st.concurrency_queue with
    | none => simp [run, hb, execute_script, setup_run, hr, hp, hid, hname, finalize, hcq]
    | some q => simp [run, hb, execute_script, setup_run, hr, hp, hid, hname, finalize, hcq]
  · intro hid hname
    cases hcq : st.concurrency_queue with
    | none => simp [run, hb, execute_script, setup_run, hr, hp, hid, hname, finalize, hcq]
    | some q => simp [run, hb, execute_script, setup_run, hr, hp, hid, hname, finalize, hcq]

/-- Witness for the amended claim C3: a body returning outcome id 0
finalizes with outcome 0 ("success"). -/
theorem execute_routes_returned_value_witness :
    testState.backward_execution = false ∧
    (run testState successBody).1.final_outcome = some ⟨0, "success"⟩ :=
  ⟨rfl,
   (execute_routes_returned_value testState successBody (PyVal.int 0)
      rfl rfl rfl).1 ⟨0, "success"⟩ rfl⟩

/-- Claim C9 counterexample: a backward run whose body raises reaches the
exception handler, which finalizes with `Outcome(-1, "aborted")` — so
this backward run does set a final outcome, against the claim's "the run
does not set a final outcome". -/
theorem backward_run_with_raising_body_sets_final_outcome :
    ({ testState with backward_execution := true } : State).final_outcome = Option.none ∧
    (run { testState with backward_execution := true } raisingBody).1.final_outcome
      = some ⟨-1, "aborted"⟩ :=
  ⟨rfl, rfl⟩

/-- Claim C9 (amended): for a backward run whose body does not raise, the
body is executed, output validation (`check_output_data_type`) is never
reached, `finalize` is invoked without an outcome argument, and the run
leaves the state's final outcome unchanged. -/
theorem backward_run_skips_validation_and_outcome (st : State) (body : Body) (v : PyVal)
    (hb : st.backward_execution = true)
    (hr : (body st.input_data st.output_data true).result = Except.ok v) :
    (run st body).2 = [RunEvent.setupBackwardRun, RunEvent.executedBody,
                       RunEvent.finalized Option.none] ∧
    (run st body).2.contains RunEvent.checkedOutputDataType = false ∧
    (run st body).1.final_outcome = st.final_outcome := by
  cases hcq : st.concurrency_queue with
  | none =>
    simp [run, hb, execute_script, setup_backward_run, hr, finalize, hcq, List.contains]
  | some q =>
    simp [run, hb, execute_script, setup_backward_run, hr, finalize, hcq, List.contains]

/-- Witness for the amended claim C9 at a concrete backward state whose
body returns normally. -/
theorem backward_run_skips_validation_and_outcome_witness :
    ({ testState with backward_execution := true } : State).backward_execution = true ∧
    (run { testState with backward_execution := true } successBody).1.final_outcome
      = Option.none :=
  ⟨rfl,
   (backward_run_skips_validation_and_outcome
      { testState with backward_execution := true } successBody (PyVal.int 0) rfl rfl).2.2⟩

theorem set_outcomes_ok_reserved (st : State) (ocs : List (Int × Outcome)) (st' : State)
    (h : set_outcomes st ocs = Except.ok st') :
    has_reserved_outcomes st' = true := by
  unfold set_outcomes at h
  split at h
  · exact absurd h (by simp)
  · simp only [Except.ok.injEq] at h
    subst h
    simp only [has_reserved_outcomes]
    by_cases h1 : acontains ocs (-1 : Int) = true
    · by_cases h2 : acontains ocs (-2 : Int) = true
      · simp [h1, h2]
      · simp [h1, h2, acontains_ainsert]
    · simp only [Bool.not_eq_true] at h1
      by_cases h2 : acontains ocs (-2 : Int) = true
      · simp [h1, h2, acontains_ainsert]
      · simp only [Bool.not_eq_true] at h2
        simp [h1, h2, acontains_ainsert]

theorem add_outcome_preserves_contains (st : State) (n : String) (oid : Option Int) (k : Int)
    (h : acontains st.outcomes k = true) :
    acontains (add_outcome st n oid).2.outcomes k = true := by
  simp only [add_outcome]
  split
  · exact h
  · split
    · exact h
    · simp [acontains_ainsert, h]

theorem add_input_data_port_outcomes (st : State) (n : String) (d : PyVal) (i : Option Int) :
    (add_input_data_port st n d i).2.outcomes = st.outcomes := by
  simp only [add_input_data_port]
  split <;> rfl

theorem add_output_data_port_outcomes (st : State) (n : String) (d : PyVal) (i : Option Int) :
    (add_output_data_port st n d i).2.outcomes = st.outcomes := by
  simp only [add_output_data_port]
  split <;> rfl

theorem apply_op_preserves_reserved (st : State) (op : StateOp)
    (h : has_reserved_outcomes st = true) :
    has_reserved_outcomes (apply_op st op) = true := by
  cases op with
  | setOutcomes ocs =>
    simp only [apply_op]
    cases hso : set_outcomes st ocs with
    | ok st' => exact set_outcomes_ok_reserved st ocs st' hso
    | error e => exact h
  | addOutcome n oid =>
    simp only [has_reserved_outcomes, Bool.and_eq_true] at h
    simp only [apply_op, has_reserved_outcomes, Bool.and_eq_true]
    exact ⟨add_outcome_preserves_contains st n oid (-1) h.1,
           add_outcome_preserves_contains st n oid (-2) h.2⟩
  | removeOutcome oid =>
    simp only [apply_op]
    cases hro : remove_outcome st oid false with
    | error e => exact h
    | ok st' =>
      unfold remove_outcome at hro
      split at hro
      · exact absurd hro (by simp)
      · split at hro
        · exact absurd hro (by simp)
        · rename_i hres
          simp only [Except.ok.injEq] at hro
          subst hro
          push_neg at hres
          have hne1 : oid ≠ -1 := fun he => by simp [he] at hres
          have hne2 : oid ≠ -2 := fun he => by simp [he] at hres
          have g1 : ¬(-1 : Int) = oid := fun he => hne1 he.symm
          have g2 : ¬(-2 : Int) = oid := fun he => hne2 he.symm
          simp only [has_reserved_outcomes, Bool.and_eq_true] at h
          simp [has_reserved_outcomes, acontains_aerase, h.1, h.2, g1, g2]
  | addInputDataPort n d i =>
    simpa only [apply_op, has_reserved_outcomes, add_input_data_port_outcomes] using h
  | addOutputDataPort n d i =>
    simpa only [apply_op, has_reserved_outcomes, add_output_data_port_outcomes] using h
  | removeInputDataPort i =>
    simp only [apply_op]
    cases hro : remove_input_data_port st i false with
    | error e => exact h
    | ok st' =>
      unfold remove_input_data_port at hro
      split at hro
      · simp only [Except.ok.injEq] at hro
        subst hro
        exact h
      · exact absurd hro (by simp)
  | removeOutputDataPort i =>
    simp only [apply_op]
    cases hro : remove_output_data_port st i false with
    | error e => exact h
    | ok st' =>
      unfold remove_output_data_port at hro
      split at hro
      · simp only [Except.ok.injEq] at hro
        subst hro
        exact h
      · exact absurd hro (by simp)

theorem apply_ops_preserve_reserved (ops : List StateOp) (st : State)
    (h : has_reserved_outcomes st = true) :
    has_reserved_outcomes (apply_ops st ops) = true := by
  induction ops generalizing st with
  | nil => exact h
  | cons op ops ih =>
    exact ih (apply_op st op) (apply_op_preserves_reserved st op h)

/-- Claim C1: the outcomes setter inserts the reserved outcomes −1 and
−2 whenever they are absent from the assigned dictionary; `remove_outcome`
with outcome id −1 or −2 and `force=False` raises and (being an error)
changes nothing; hence every sequence of non-forced data-model operations
preserves the presence of the two reserved outcomes. -/
theorem reserved_outcomes_always_present :
    (∀ st ocs st', set_outcomes st ocs = Except.ok st' →
        has_reserved_outcomes st' = true) ∧
    (∀ st : State, acontains st.outcomes (-1) = true →
        remove_outcome st (-1) false
          = Except.error "You cannot remove the outcomes with id -1 or -2") ∧
    (∀ st : State, acontains st.outcomes (-2) = true →
        remove_outcome st (-2) false
          = Except.error "You cannot remove the outcomes with id -1 or -2") ∧
    (∀ (st : State) (ops : List StateOp), has_reserved_outcomes st = true →
        has_reserved_outcomes (apply_ops st ops) = true) := by
  refine ⟨set_outcomes_ok_reserved, ?_, ?_,
          fun st ops h => apply_ops_preserve_reserved ops st h⟩
  · intro st h1
    simp [remove_outcome, h1]
  · intro st h2
    simp [remove_outcome, h2]

/-- Witness for claim C1: a concrete operation sequence — adding an
outcome, removing outcome 0, attempting to remove outcome −1 and
reassigning the whole outcomes map — keeps the reserved outcomes
present. -/
theorem reserved_outcomes_always_present_witness :
    has_reserved_outcomes testState = true ∧
    has_reserved_outcomes
      (apply_ops testState
        [StateOp.addOutcome "done" Option.none,
         StateOp.removeOutcome 0,
         StateOp.removeOutcome (-1),
         StateOp.setOutcomes [(3, ⟨3, "extra"⟩)]]) = true :=
  ⟨rfl,
   reserved_outcomes_always_present.2.2.2 testState
     [StateOp.addOutcome "done" Option.none,
      StateOp.removeOutcome 0,
      StateOp.removeOutcome (-1),
      StateOp.setOutcomes [(3, ⟨3, "extra"⟩)]] rfl⟩

/-- Claim C8 counterexample: adding an outcome whose outcome id 0 is
already present (with a fresh name) does not fail with a typed error:
`add_outcome` logs and returns None, leaving the state untouched. -/
theorem add_outcome_duplicate_id_returns_silently :
    (add_outcome testState "totally_fresh" (some 0)).1 = AddOutcomeResult.silent ∧
    (add_outcome testState "totally_fresh" (some 0)).2 = testState :=
  ⟨rfl, rfl⟩

/-- Claim C8 (amended): `add_outcome` with an outcome id already present
in the outcomes map returns silently (logging, not raising a typed
error) and leaves the state unchanged; moreover the method's own
duplicate-name guard compares the name against the integer outcome ids
and therefore never fires. -/
theorem add_outcome_duplicate_id_silent (st : State) (name : String) (oid : Int)
    (hdup : acontains st.outcomes oid = true) :
    (add_outcome st name (some oid)).1 = AddOutcomeResult.silent ∧
    (add_outcome st name (some oid)).2 = st ∧
    (akeys st.outcomes).any (fun k => py_str_eq_int name k) = false := by
  have hname : (akeys st.outcomes).any (fun k => py_str_eq_int name k) = false := by
    simp [py_str_eq_int]
  refine ⟨?_, ?_, hname⟩ <;> simp [add_outcome, hname, hdup]

/-- Witness for the amended claim C8 at a concrete state. -/
theorem add_outcome_duplicate_id_silent_witness :
    acontains testState.outcomes 0 = true ∧
    (add_outcome testState "anything" (some 0)).1 = AddOutcomeResult.silent :=
  ⟨rfl, (add_outcome_duplicate_id_silent testState "anything" 0 rfl).1⟩

theorem alookup_eq_none_iff {κ α : Type} [DecidableEq κ] (m : List (κ × α)) (k : κ) :
    alookup m k = Option.none ↔ ∀ p ∈ m, p.1 ≠ k := by
  induction m with
  | nil => simp [alookup]
  | cons q rest ih =>
    obtain ⟨qk, qv⟩ := q
    by_cases h : qk = k
    · subst h
      simp [alookup]
    · simp [alookup, h, ih]

theorem acontains_eq_false_iff {κ α : Type} [DecidableEq κ] (m : List (κ × α)) (k : κ) :
    acontains m k = false ↔ ∀ p ∈ m, p.1 ≠ k := by
  rw [← alookup_eq_none_iff]
  cases h : alookup m k <;> simp [acontains, h]

theorem ainsert_of_not_contains {κ α : Type} [DecidableEq κ]
    (m : List (κ × α)) (k : κ) (v : α) (h : acontains m k = false) :
    ainsert m k v = m ++ [(k, v)] := by
  induction m with
  | nil => rfl
  | cons q rest ih =>
    obtain ⟨qk, qv⟩ := q
    have h' := (acontains_eq_false_iff ((qk, qv) :: rest) k).mp h
    have hqk : qk ≠ k := h' (qk, qv) (List.mem_cons_self _ _)
    have hrest : acontains rest k = false :=
      (acontains_eq_false_iff rest k).mpr (fun p hp => h' p (List.mem_cons_of_mem _ hp))
    simp [ainsert, hqk, ih hrest]

theorem aerase_of_not_contains {κ α : Type} [DecidableEq κ]
    (m : List (κ × α)) (k : κ) (h : acontains m k = false) :
    aerase m k = m := by
  have h' := (acontains_eq_false_iff m k).mp h
  simp only [aerase]
  exact List.filter_eq_self.mpr (fun p hp => by simpa using h' p hp)

theorem le_foldl_max (ids : List Int) (a : Int) : a ≤ ids.foldl max a := by
  induction ids generalizing a with
  | nil => exact le_refl a
  | cons b ids ih => exact le_trans (le_max_left a b) (ih (max a b))

theorem mem_le_foldl_max (ids : List Int) (a x : Int) (hx : x ∈ ids) :
    x ≤ ids.foldl max a := by
  induction ids generalizing a with
  | nil => cases hx
  | cons b ids ih =>
    rcases List.mem_cons.mp hx with h | h
    · subst h
      exact le_trans (le_max_right a x) (le_foldl_max ids (max a x))
    · exact ih (max a b) h

theorem generate_data_port_id_fresh (ids : List Int) :
    generate_data_port_id ids ∉ ids := by
  intro hmem
  have h1 := mem_le_foldl_max ids 0 _ hmem
  simp only [generate_data_port_id] at h1
  have h2 : List.foldl (fun a b => max a b) 0 ids = List.foldl max 0 ids := rfl
  rw [h2] at h1
  omega

theorem acontains_eq_false_of_not_mem_keys {α : Type} (m : List (Int × α)) (k : Int)
    (h : k ∉ akeys m) :
    acontains m k = false :=
  (acontains_eq_false_iff m k).mpr
    (fun _p hp he => h (he ▸ List.mem_map_of_mem (fun q => q.1) hp))

theorem any_name_of_fresh (m : List (Int × DataPort)) (i : Int) (name : String)
    (hkeys : ∀ q ∈ m, q.1 ≠ i) :
    (m.any fun q => !decide (q.1 = i) && decide (q.2.name = name))
      = (m.any fun q => decide (q.2.name = name)) := by
  induction m with
  | nil => rfl
  | cons q rest ih =>
    have hq : q.1 ≠ i := hkeys q (List.mem_cons_self _ _)
    have hrest : ∀ p ∈ rest, p.1 ≠ i := fun p hp => hkeys p (List.mem_cons_of_mem _ hp)
    simp [List.any_cons, ih hrest, hq]

theorem check_input_name_fresh (m out : List (Int × DataPort)) (i : Int)
    (name : String) (dv : PyVal) (hf : acontains m i = false) :
    check_data_port_name (ainsert m i ⟨i, name, dv⟩) out ⟨i, name, dv⟩
      = ! m.any (fun q => q.2.name = name) := by
  have happ := ainsert_of_not_contains m i (⟨i, name, dv⟩ : DataPort) hf
  have hkeys : ∀ q ∈ m, q.1 ≠ i := (acontains_eq_false_iff m i).mp hf
  have hcont : acontains (m ++ [(i, (⟨i, name, dv⟩ : DataPort))]) i = true := by
    rw [← happ]
    simp [acontains_ainsert]
  simp only [check_data_port_name]
  rw [happ]
  simp [hcont, List.any_append, any_name_of_fresh m i name hkeys]

theorem check_output_name_fresh (inp m : List (Int × DataPort)) (i : Int)
    (name : String) (dv : PyVal)
    (hin : acontains inp i = false) (hf : acontains m i = false) :
    check_data_port_name inp (ainsert m i ⟨i, name, dv⟩) ⟨i, name, dv⟩
      = ! m.any (fun q => q.2.name = name) := by
  have happ := ainsert_of_not_contains m i (⟨i, name, dv⟩ : DataPort) hf
  have hkeys : ∀ q ∈ m, q.1 ≠ i := (acontains_eq_false_iff m i).mp hf
  have hcont : acontains (m ++ [(i, (⟨i, name, dv⟩ : DataPort))]) i = true := by
    rw [← happ]
    simp [acontains_ainsert]
  simp only [check_data_port_name]
  rw [happ]
  simp [hin, hcont, List.any_append, any_name_of_fresh m i name hkeys]

theorem aerase_ainsert_of_not_contains {κ α : Type} [DecidableEq κ]
    (m : List (κ × α)) (k : κ) (v : α) (h : acontains m k = false) :
    aerase (ainsert m k v) k = m := by
  rw [ainsert_of_not_contains m k v h]
  simp only [aerase, List.filter_append]
  rw [show List.filter (fun p => decide (p.1 ≠ k)) m = m from
        List.filter_eq_self.mpr (fun p hp => by
          simpa using (acontains_eq_false_iff m k).mp h p hp)]
  simp

theorem add_input_data_port_with_fresh_id (st : State) (name : String) (dv : PyVal)
    (i : Int) (hf : acontains st.input_data_ports i = false) :
    (st.input_data_ports.any (fun q => q.2.name = name) = true →
        (add_input_data_port st name dv (some i)).1
          = PortOpResult.err "data port name already existing in state's input data ports" ∧
        (add_input_data_port st name dv (some i)).2 = st) ∧
    (st.input_data_ports.any (fun q => q.2.name = name) = false →
        (add_input_data_port st name dv (some i)).1 = PortOpResult.ok i ∧
        (add_input_data_port st name dv (some i)).2.input_data_ports
          = st.input_data_ports ++ [(i, ⟨i, name, dv⟩)] ∧
        (add_input_data_port st name dv (some i)).2.output_data_ports
          = st.output_data_ports) := by
  constructor
  · intro hdup
    have hc := check_input_name_fresh st.input_data_ports st.output_data_ports i name dv hf
    rw [hdup] at hc
    simp only [Bool.not_true] at hc
    simp only [add_input_data_port, hc, Bool.false_eq_true, if_false]
    refine ⟨trivial, ?_⟩
    rw [aerase_ainsert_of_not_contains st.input_data_ports i (⟨i, name, dv⟩ : DataPort) hf]
  · intro hok
    have hc := check_input_name_fresh st.input_data_ports st.output_data_ports i name dv hf
    rw [hok] at hc
    simp only [Bool.not_false] at hc
    simp only [add_input_data_port, hc, if_true]
    exact ⟨trivial, ainsert_of_not_contains st.input_data_ports i (⟨i, name, dv⟩ : DataPort) hf, trivial⟩

theorem add_output_data_port_with_fresh_id (st : State) (name : String) (dv : PyVal)
    (i : Int) (hin : acontains st.input_data_ports i = false)
    (hf : acontains st.output_data_ports i = false) :
    (st.output_data_ports.any (fun q => q.2.name = name) = true →
        (add_output_data_port st name dv (some i)).1
          = PortOpResult.err "data port name already existing in state's output data ports" ∧
        (add_output_data_port st name dv (some i)).2 = st) ∧
    (st.output_data_ports.any (fun q => q.2.name = name) = false →
        (add_output_data_port st name dv (some i)).1 = PortOpResult.ok i ∧
        (add_output_data_port st name dv (some i)).2.output_data_ports
          = st.output_data_ports ++ [(i, ⟨i, name, dv⟩)] ∧
        (add_output_data_port st name dv (some i)).2.input_data_ports
          = st.input_data_ports) := by
  constructor
  · intro hdup
    have hc := check_output_name_fresh st.input_data_ports st.output_data_ports i name dv hin hf
    rw [hdup] at hc
    simp only [Bool.not_true] at hc
    simp only [add_output_data_port, hc, Bool.false_eq_true, if_false]
    refine ⟨trivial, ?_⟩
    rw [aerase_ainsert_of_not_contains st.output_data_ports i (⟨i, name, dv⟩ : DataPort) hf]
  · intro hok
    have hc := check_output_name_fresh st.input_data_ports st.output_data_ports i name dv hin hf
    rw [hok] at hc
    simp only [Bool.not_false] at hc
    simp only [add_output_data_port, hc, if_true]
    exact ⟨trivial, ainsert_of_not_contains st.output_data_ports i (⟨i, name, dv⟩ : DataPort) hf, trivial⟩

/-- Claim C7 counterexample: on a state with input ports 1 ("a") and
2 ("b"), `add_input_data_port("a", data_port_id=2)` raises the
duplicate-name error, yet the port map afterwards is missing port 2:
the method overwrote port 2 before validating and deleted it on
failure, so the operation is not all-or-nothing. -/
theorem add_input_data_port_duplicate_name_not_atomic :
    (add_input_data_port twoPortState "a" PyVal.none (some 2)).1
      = PortOpResult.err "data port name already existing in state's input data ports" ∧
    (add_input_data_port twoPortState "a" PyVal.none (some 2)).2.input_data_ports
      = [(1, ⟨1, "a", PyVal.none⟩)] ∧
    twoPortState.input_data_ports
      = [(1, ⟨1, "a", PyVal.none⟩), (2, ⟨2, "b", PyVal.none⟩)] :=
  ⟨rfl, rfl, rfl⟩

/-- Claim C7 (amended): as long as the supplied `data_port_id` is not an
id already present in the state's port maps (in particular whenever the
id is generated, which yields a fresh id), `add_input_data_port` and
`add_output_data_port` with a name already used by another port of the
same direction fail with the duplicate-name error and leave the state
exactly as before, and on success exactly one new port with the given
name is appended and its id returned.  (When an already-present id is
passed, the operation first overwrites that port, so atomicity fails —
see the counterexample.) -/
theorem add_data_port_fresh_id_is_atomic (st : State) (name : String) (dv : PyVal)
    (dpid : Option Int)
    (hfresh : ∀ i, dpid = some i →
        acontains st.input_data_ports i = false ∧
        acontains st.output_data_ports i = false) :
    ((st.input_data_ports.any (fun q => q.2.name = name) = true →
        (add_input_data_port st name dv dpid).1
          = PortOpResult.err "data port name already existing in state's input data ports" ∧
        (add_input_data_port st name dv dpid).2 = st) ∧
     (st.input_data_ports.any (fun q => q.2.name = name) = false →
        ∃ i, (add_input_data_port st name dv dpid).1 = PortOpResult.ok i ∧
          acontains st.input_data_ports i = false ∧
          (add_input_data_port st name dv dpid).2.input_data_ports
            = st.input_data_ports ++ [(i, ⟨i, name, dv⟩)] ∧
          (add_input_data_port st name dv dpid).2.output_data_ports
            = st.output_data_ports)) ∧
    ((st.output_data_ports.any (fun q => q.2.name = name) = true →
        (add_output_data_port st name dv dpid).1
          = PortOpResult.err "data port name already existing in state's output data ports" ∧
        (add_output_data_port st name dv dpid).2 = st) ∧
     (st.output_data_ports.any (fun q => q.2.name = name) = false →
        ∃ i, (add_output_data_port st name dv dpid).1 = PortOpResult.ok i ∧
          acontains st.output_data_ports i = false ∧
          (add_output_data_port st name dv dpid).2.output_data_ports
            = st.output_data_ports ++ [(i, ⟨i, name, dv⟩)] ∧
          (add_output_data_port st name dv dpid).2.input_data_ports
            = st.input_data_ports)) := by
  have hcase : ∃ i, dpid = some i ∨
      (dpid = Option.none ∧
       i = generate_data_port_id (akeys st.input_data_ports ++ akeys st.output_data_ports)) := by
    cases dpid with
    | some j => exact ⟨j, Or.inl rfl⟩
    | none => exact ⟨_, Or.inr ⟨rfl, rfl⟩⟩
  obtain ⟨i, hi⟩ := hcase
  have hif : acontains st.input_data_ports i = false ∧
      acontains st.output_data_ports i = false := by
    rcases hi with h | ⟨_, hgen⟩
    · exact hfresh i h
    · subst hgen
      have hnm := generate_data_port_id_fresh
        (akeys st.input_data_ports ++ akeys st.output_data_ports)
      rw [List.mem_append] at hnm
      push_neg at hnm
      exact ⟨acontains_eq_false_of_not_mem_keys _ _ hnm.1,
             acontains_eq_false_of_not_mem_keys _ _ hnm.2⟩
  have heqi : add_input_data_port st name dv dpid
      = add_input_data_port st name dv (some i) := by
    rcases hi with h | ⟨hn, hgen⟩
    · rw [h]
    · rw [hn, hgen]
      rfl
  have heqo : add_output_data_port st name dv dpid
      = add_output_data_port st name dv (some i) := by
    rcases hi with h | ⟨hn, hgen⟩
    · rw [h]
    · rw [hn, hgen]
      rfl
  rw [heqi, heqo]
  have hin := add_input_data_port_with_fresh_id st name dv i hif.1
  have hout := add_output_data_port_with_fresh_id st name dv i hif.1 hif.2
  exact ⟨⟨hin.1, fun hok => ⟨i, (hin.2 hok).1, hif.1, (hin.2 hok).2.1, (hin.2 hok).2.2⟩⟩,
         ⟨hout.1, fun hok => ⟨i, (hout.2 hok).1, hif.2, (hout.2 hok).2.1, (hout.2 hok).2.2⟩⟩⟩

/-- Witness for the amended claim C7: adding a port named "c" with a
fresh explicit id 7 to the two-port state succeeds, and adding a port
named "a" with a generated id fails and leaves the state unchanged. -/
theorem add_data_port_fresh_id_is_atomic_witness :
    ((twoPortState.input_data_ports.any (fun q => q.2.name = "a")) = true ∧
     (add_input_data_port twoPortState "a" PyVal.none Option.none).2 = twoPortState) ∧
    ((twoPortState.input_data_ports.any (fun q => q.2.name = "c")) = false ∧
     ∃ i, (add_input_data_port twoPortState "c" PyVal.none (some 7)).1
            = PortOpResult.ok i) := by
  constructor
  · refine ⟨by decide, ?_⟩
    exact ((add_data_port_fresh_id_is_atomic twoPortState "a" PyVal.none Option.none
      (fun i h => by cases h)).1.1 (by decide)).2
  · refine ⟨by decide, ?_⟩
    obtain ⟨i, h1, -, -, -⟩ :=
      (add_data_port_fresh_id_is_atomic twoPortState "c" PyVal.none (some 7)
        (fun i h => by cases h; exact ⟨by decide, by decide⟩)).1.2 (by decide)
    exact ⟨i, h1⟩

theorem acontains_eq_true_iff {κ α : Type} [DecidableEq κ] (m : List (κ × α)) (k : κ) :
    acontains m k = true ↔ ∃ p ∈ m, p.1 = k := by
  induction m with
  | nil => simp [acontains, alookup]
  | cons q rest ih =>
    obtain ⟨qk, qv⟩ := q
    by_cases h : qk = k
    · subst h
      simp [acontains, alookup]
    · simp only [acontains, alookup, if_neg h] at ih ⊢
      rw [ih]
      constructor
      · rintro ⟨p, hp, hpk⟩
        exact ⟨p, List.mem_cons_of_mem _ hp, hpk⟩
      · rintro ⟨p, hp, hpk⟩
        rcases List.mem_cons.mp hp with he | hm
        · exact absurd (by rw [he] at hpk; exact hpk) h
        · exact ⟨p, hm, hpk⟩

theorem remove_input_step_eq (s : State) (k : Int) :
    (match remove_input_data_port s k true with
     | Except.ok s' => s'
     | Except.error _ => s)
      = { s with input_data_ports := aerase s.input_data_ports k } := by
  unfold remove_input_data_port
  by_cases h : acontains s.input_data_ports k = true
  · simp [h]
  · simp only [Bool.not_eq_true] at h
    simp [h, aerase_of_not_contains _ _ h]

theorem remove_output_step_eq (s : State) (k : Int) :
    (match remove_output_data_port s k true with
     | Except.ok s' => s'
     | Except.error _ => s)
      = { s with output_data_ports := aerase s.output_data_ports k } := by
  unfold remove_output_data_port
  by_cases h : acontains s.output_data_ports k = true
  · simp [h]
  · simp only [Bool.not_eq_true] at h
    simp [h, aerase_of_not_contains _ _ h]

theorem remove_outcome_forced_step_eq (s : State) (k : Int) :
    (if k ≠ -1 ∧ k ≠ -2 then
       match remove_outcome s k true with
       | Except.ok s' => s'
       | Except.error _ => s
     else s)
      = { s with outcomes := if k ≠ -1 ∧ k ≠ -2 then aerase s.outcomes k
                             else s.outcomes } := by
  by_cases hres : k ≠ -1 ∧ k ≠ -2
  · rw [if_pos hres, if_pos hres]
    unfold remove_outcome
    by_cases h : acontains s.outcomes k = true
    · simp [h]
    · simp only [Bool.not_eq_true] at h
      simp [h, aerase_of_not_contains _ _ h]
  · simp [hres]

theorem destruct_input_phase (ks : List Int) (st : State) :
    ks.foldl (fun s k => match remove_input_data_port s k true with
                         | Except.ok s' => s'
                         | Except.error _ => s) st
      = { st with input_data_ports :=
            ks.foldl (fun m k => aerase m k) st.input_data_ports } := by
  induction ks generalizing st with
  | nil => rfl
  | cons k ks ih =>
    simp only [List.foldl_cons]
    rw [remove_input_step_eq, ih]

theorem destruct_output_phase (ks : List Int) (st : State) :
    ks.foldl (fun s k => match remove_output_data_port s k true with
                         | Except.ok s' => s'
                         | Except.error _ => s) st
      = { st with output_data_ports :=
            ks.foldl (fun m k => aerase m k) st.output_data_ports } := by
  induction ks generalizing st with
  | nil => rfl
  | cons k ks ih =>
    simp only [List.foldl_cons]
    rw [remove_output_step_eq, ih]

theorem destruct_outcome_phase (ks : List Int) (st : State) :
    ks.foldl (fun s k =>
        if k ≠ -1 ∧ k ≠ -2 then
          (match remove_outcome s k true with
           | Except.ok s' => s'
           | Except.error _ => s)
        else s) st
      = { st with outcomes :=
            ks.foldl (fun m k => if k ≠ -1 ∧ k ≠ -2 then aerase m k else m) st.outcomes } := by
  induction ks generalizing st with
  | nil => rfl
  | cons k ks ih =>
    simp only [List.foldl_cons]
    rw [remove_outcome_forced_step_eq, ih]

theorem foldl_aerase_eq_filter {α : Type} (ks : List Int) (m : List (Int × α)) :
    ks.foldl (fun m k => aerase m k) m = m.filter (fun p => !ks.contains p.1) := by
  induction ks generalizing m with
  | nil => exact (List.filter_eq_self.mpr (fun a _ => by simp [List.contains, List.elem])).symm
  | cons k ks ih =>
    simp only [List.foldl_cons]
    rw [ih]
    simp only [aerase]
    rw [List.filter_filter]
    apply List.filter_congr
    intro p _
    by_cases h : p.1 = k <;> simp [h]

theorem foldl_erase_nonreserved (ks : List Int) (m : List (Int × Outcome)) :
    ks.foldl (fun m k => if k ≠ -1 ∧ k ≠ -2 then aerase m k else m) m
      = m.filter (fun p =>
          decide (p.1 = -1) || decide (p.1 = -2) || !ks.contains p.1) := by
  induction ks generalizing m with
  | nil => exact (List.filter_eq_self.mpr (fun a _ => by simp [List.contains, List.elem])).symm
  | cons k ks ih =>
    simp only [List.foldl_cons]
    by_cases hk : k ≠ -1 ∧ k ≠ -2
    · rw [if_pos hk, ih]
      simp only [aerase]
      rw [List.filter_filter]
      apply List.filter_congr
      intro p _
      by_cases h : p.1 = k
      · simp [h, hk.1, hk.2]
      · simp [h]
    · rw [if_neg hk, ih]
      apply List.filter_congr
      intro p _
      have hk' : k = -1 ∨ k = -2 := by
        rcases not_and_or.mp hk with h1 | h2
        · exact Or.inl (not_not.mp h1)
        · exact Or.inr (not_not.mp h2)
      by_cases h : p.1 = k
      · rcases hk' with he | he <;> simp [h, he]
      · simp [h]

/-- Claim C10: after `State.destruct()` the input and output port maps
are empty and the outcomes map contains exactly the two reserved
outcomes −1 and −2 (assuming they were present, as construction
guarantees): every port and every non-reserved outcome is removed with
force, while the reserved outcomes are deliberately skipped. -/
theorem destruct_clears_ports_keeps_reserved (st : State)
    (h1 : acontains st.outcomes (-1) = true)
    (h2 : acontains st.outcomes (-2) = true) :
    (destruct st).input_data_ports = [] ∧
    (destruct st).output_data_ports = [] ∧
    (∀ k : Int, acontains (destruct st).outcomes k = true ↔ (k = -1 ∨ k = -2)) := by
  have hdes : destruct st
      = { st with
            input_data_ports := [],
            output_data_ports := [],
            outcomes := st.outcomes.filter (fun p =>
              decide (p.1 = -1) || decide (p.1 = -2)
                || !(akeys st.outcomes).contains p.1) } := by
    unfold destruct
    simp only [destruct_input_phase, destruct_output_phase, destruct_outcome_phase,
               foldl_aerase_eq_filter, foldl_erase_nonreserved]
    have hin : st.input_data_ports.filter
        (fun p => !(akeys st.input_data_ports).contains p.1) = [] :=
      List.filter_eq_nil_iff.mpr (fun p hp => by
        simp [akeys]
        exact ⟨p.2, hp⟩)
    have hout : st.output_data_ports.filter
        (fun p => !(akeys st.output_data_ports).contains p.1) = [] :=
      List.filter_eq_nil_iff.mpr (fun p hp => by
        simp [akeys]
        exact ⟨p.2, hp⟩)
    rw [hin, hout]
  refine ⟨by rw [hdes], by rw [hdes], ?_⟩
  intro k
  rw [hdes]
  constructor
  · intro hc
    obtain ⟨p, hp, hpk⟩ := (acontains_eq_true_iff _ _).mp hc
    have hmem := List.mem_filter.mp hp
    rcases Bool.or_eq_true_iff.mp (by
        rcases Bool.or_eq_true_iff.mp hmem.2 with h | h
        · exact h
        · exact absurd h (by
            simp [akeys]
            exact ⟨p.2, hmem.1⟩)) with h | h
    · exact Or.inl (hpk ▸ of_decide_eq_true h)
    · exact Or.inr (hpk ▸ of_decide_eq_true h)
  · intro hk
    have hget : ∃ p ∈ st.outcomes, p.1 = k := by
      rcases hk with he | he
      · subst he
        exact (acontains_eq_true_iff _ _).mp h1
      · subst he
        exact (acontains_eq_true_iff _ _).mp h2
    obtain ⟨p, hp, hpk⟩ := hget
    apply (acontains_eq_true_iff _ _).mpr
    refine ⟨p, List.mem_filter.mpr ⟨hp, ?_⟩, hpk⟩
    rcases hk with he | he <;> simp [hpk, he]

/-- Witness for claim C10 at a concrete state with ports and an extra
outcome. -/
theorem destruct_clears_ports_keeps_reserved_witness :
    acontains twoPortState.outcomes (-1) = true ∧
    (destruct twoPortState).input_data_ports = [] ∧
    (acontains (destruct twoPortState).outcomes 0 = true ↔ ((0 : Int) = -1 ∨ (0 : Int) = -2)) :=
  ⟨rfl, (destruct_clears_ports_keeps_reserved twoPortState rfl rfl).1,
   (destruct_clears_ports_keeps_reserved twoPortState rfl rfl).2.2 0⟩

theorem lookup_fold_defaults_skip (gvm : GlobalVariableManager) (is_library : Bool)
    (use_rt : List (Int × Bool)) (rt : List (Int × PyVal))
    (ports : List (Int × DataPort)) (acc : List (String × PyVal)) (nm : String)
    (hnone : ∀ q ∈ ports, q.2.name ≠ nm) :
    alookup (ports.foldl (fun acc kv => ainsert acc kv.2.name
        (resolve_default gvm (port_default is_library use_rt rt kv.1 kv.2))) acc) nm
      = alookup acc nm := by
  induction ports generalizing acc with
  | nil => rfl
  | cons kv rest ih =>
    have hkv : kv.2.name ≠ nm := hnone kv (List.mem_cons_self _ _)
    have hrest : ∀ q ∈ rest, q.2.name ≠ nm :=
      fun q hq => hnone q (List.mem_cons_of_mem _ hq)
    simp only [List.foldl_cons]
    rw [ih _ hrest, alookup_ainsert, if_neg hkv]

theorem lookup_fold_defaults (gvm : GlobalVariableManager) (is_library : Bool)
    (use_rt : List (Int × Bool)) (rt : List (Int × PyVal))
    (ports : List (Int × DataPort)) :
    ∀ (acc : List (String × PyVal)) (k : Int) (p : DataPort),
      (k, p) ∈ ports →
      (∀ q ∈ ports, q.2.name = p.name → q = (k, p)) →
      alookup (ports.foldl (fun acc kv => ainsert acc kv.2.name
          (resolve_default gvm (port_default is_library use_rt rt kv.1 kv.2))) acc) p.name
        = some (resolve_default gvm (port_default is_library use_rt rt k p)) := by
  induction ports with
  | nil =>
    intro acc k p hmem _
    cases hmem
  | cons kv rest ih =>
    intro acc k p hmem huniq
    by_cases hmemr : (k, p) ∈ rest
    · have huniqr : ∀ q ∈ rest, q.2.name = p.name → q = (k, p) :=
        fun q hq hn => huniq q (List.mem_cons_of_mem _ hq) hn
      simp only [List.foldl_cons]
      exact ih _ k p hmemr huniqr
    · have hhead : kv = (k, p) := by
        rcases List.mem_cons.mp hmem with he | hm
        · exact he.symm
        · exact absurd hm hmemr
      subst hhead
      have hrest : ∀ q ∈ rest, q.2.name ≠ p.name := by
        intro q hq hn
        have hq' := huniq q (List.mem_cons_of_mem _ hq) hn
        rw [hq'] at hq
        exact hmemr hq
      simp only [List.foldl_cons]
      rw [lookup_fold_defaults_skip gvm is_library use_rt rt rest _ _ hrest,
          alookup_ainsert, if_pos rfl]

/-- Claim C5: `get_default_input_values_for_state` maps each input
port's name to: the value of the global variable named by the default
string without its leading `$` when the default is a non-empty string
starting with `$` and that global exists; `None` (with an error logged)
when the global does not exist; otherwise a copy of the default — where
for a `LibraryState` the runtime-override value replaces the port's
default whenever `use_runtime_value` is set for that port
(`port_default`).  The port's name must be unique among the input
ports, which invariant 5 of the data model guarantees. -/
theorem default_input_values_resolution (gvm : GlobalVariableManager)
    (is_library : Bool) (use_rt : List (Int × Bool)) (rt : List (Int × PyVal))
    (ports : List (Int × DataPort)) (k : Int) (p : DataPort)
    (hmem : (k, p) ∈ ports)
    (huniq : ∀ q ∈ ports, q.2.name = p.name → q = (k, p)) :
    (∀ s : String,
       port_default is_library use_rt rt k p = PyVal.str s →
       s.length > 0 → s.front = '$' →
         ((variable_exist gvm (s.drop 1) = true →
             alookup (get_default_input_values_for_state gvm is_library use_rt rt ports) p.name
               = some (get_variable gvm (s.drop 1))) ∧
          (variable_exist gvm (s.drop 1) = false →
             alookup (get_default_input_values_for_state gvm is_library use_rt rt ports) p.name
               = some PyVal.none))) ∧
    ((∀ s : String, port_default is_library use_rt rt k p = PyVal.str s →
         ¬(s.length > 0 ∧ s.front = '$')) →
       alookup (get_default_input_values_for_state gvm is_library use_rt rt ports) p.name
         = some (port_default is_library use_rt rt k p)) := by
  have hbase : alookup (get_default_input_values_for_state gvm is_library use_rt rt ports) p.name
      = some (resolve_default gvm (port_default is_library use_rt rt k p)) :=
    lookup_fold_defaults gvm is_library use_rt rt ports [] k p hmem huniq
  constructor
  · intro s hs hlen hfront
    rw [hs] at hbase
    constructor
    · intro hex
      rw [hbase]
      simp [resolve_default, hlen, hfront, hex]
    · intro hex
      rw [hbase]
      simp [resolve_default, hlen, hfront, hex]
  · intro hno
    have hres : resolve_default gvm (port_default is_library use_rt rt k p)
        = port_default is_library use_rt rt k p := by
      cases hd : port_default is_library use_rt rt k p with
      | str s =>
        have hns := hno s hd
        simp [resolve_default, hns]
      | none => rfl
      | int n => rfl
      | exc m => rfl
    rw [hbase, hres]

/-- A concrete global variable store holding x = 42. -/
def gvm42 : GlobalVariableManager :=
  ⟨[("x", PyVal.int 42)]⟩

/-- Witness for claim C5: a port whose default is the string "$x"
resolves to the value 42 of the global variable x. -/
theorem default_input_values_resolution_witness :
    variable_exist gvm42 ("$x".drop 1) = true ∧
    alookup (get_default_input_values_for_state gvm42 false [] []
        [(1, ⟨1, "port", PyVal.str "$x"⟩)]) "port"
      = some (PyVal.int 42) := by
  refine ⟨rfl, ?_⟩
  have h := ((default_input_values_resolution gvm42 false [] []
      [(1, ⟨1, "port", PyVal.str "$x"⟩)] 1 ⟨1, "port", PyVal.str "$x"⟩
      (by decide) (by decide)).1 "$x" rfl (by decide) (by decide)).1 rfl
  exact h.trans (by decide)

end Rafcon
